import Mathlib

/-!
Shallow embedding of the request-shaping utilities of the z.ai2api_deno
repository (src/app/utils/helpers.ts and src/app/utils/model_fetcher.ts),
together with theorems settling the frozen claims about them.

External platform primitives (wall clock, crypto randomness, the fetch
transport, the process configuration object) are passed in as explicit
parameters; everything else is translated directly from the TypeScript
source.  SHA-256 and HMAC-SHA-256 (the WebCrypto primitives used by
hmacSha256Hex and generateLegacySignatureHeaders) are implemented
concretely over byte lists.
-/

set_option maxRecDepth 10000

namespace ZAI

/-! ## 32-bit words and SHA-256 -/

def add32 (a b : Nat) : Nat := (a + b) % 4294967296

def rotr (n x : Nat) : Nat := ((x >>> n) ||| (x <<< (32 - n))) % 4294967296

def sig0 (x : Nat) : Nat := (rotr 7 x) ^^^ (rotr 18 x) ^^^ (x >>> 3)

def sig1 (x : Nat) : Nat := (rotr 17 x) ^^^ (rotr 19 x) ^^^ (x >>> 10)

def bigSig0 (x : Nat) : Nat := (rotr 2 x) ^^^ (rotr 13 x) ^^^ (rotr 22 x)

def bigSig1 (x : Nat) : Nat := (rotr 6 x) ^^^ (rotr 11 x) ^^^ (rotr 25 x)

/-- The 64 SHA-256 round constants (written in decimal). -/
def shaK : List Nat :=
  [1116352408, 1899447441, 3049323471, 3921009573, 961987163, 1508970993,
   2453635748, 2870763221, 3624381080, 310598401, 607225278, 1426881987,
   1925078388, 2162078206, 2614888103, 3248222580, 3835390401, 4022224774,
   264347078, 604807628, 770255983, 1249150122, 1555081692, 1996064986,
   2554220882, 2821834349, 2952996808, 3210313671, 3336571891, 3584528711,
   113926993, 338241895, 666307205, 773529912, 1294757372, 1396182291,
   1695183700, 1986661051, 2177026350, 2456956037, 2730485921, 2820302411,
   3259730800, 3345764771, 3516065817, 3600352804, 4094571909, 275423344,
   430227734, 506948616, 659060556, 883997877, 958139571, 1322822218,
   1537002063, 1747873779, 1955562222, 2024104815, 2227730452, 2361852424,
   2428436474, 2756734187, 3204031479, 3329325298]

structure Hash8 where
  a : Nat
  b : Nat
  c : Nat
  d : Nat
  e : Nat
  f : Nat
  g : Nat
  hh : Nat
deriving DecidableEq

def initHash : Hash8 :=
  ⟨1779033703, 3144134277, 1013904242, 2773480762,
   1359893119, 2600822924, 528734635, 1541459225⟩

/-- Big-endian packing of bytes into 32-bit words. -/
def bytesToWords : List Nat → List Nat
  | b0 :: b1 :: b2 :: b3 :: rest =>
      (((b0 * 256 + b1) * 256 + b2) * 256 + b3) :: bytesToWords rest
  | _ => []

/-- Extend the 16 message words to 64 (n is the number of words still to add). -/
def extendLoop : Nat → List Nat → List Nat
  | 0, w => w
  | n + 1, w =>
      let i := w.length
      extendLoop n (w ++ [add32 (add32 (w.getD (i - 16) 0) (sig0 (w.getD (i - 15) 0)))
                          (add32 (w.getD (i - 7) 0) (sig1 (w.getD (i - 2) 0)))])

def msgSchedule (w16 : List Nat) : List Nat := extendLoop 48 w16

def compressRound (st : Hash8) (kw : Nat × Nat) : Hash8 :=
  let ch := (st.e &&& st.f) ^^^ ((st.e ^^^ 4294967295) &&& st.g)
  let t1 := add32 (add32 (add32 st.hh (bigSig1 st.e)) (add32 ch kw.1)) kw.2
  let maj := ((st.a &&& st.b) ^^^ (st.a &&& st.c)) ^^^ (st.b &&& st.c)
  let t2 := add32 (bigSig0 st.a) maj
  ⟨add32 t1 t2, st.a, st.b, st.c, add32 st.d t1, st.e, st.f, st.g⟩

def processChunk (H : Hash8) (chunk : List Nat) : Hash8 :=
  let w := msgSchedule (bytesToWords chunk)
  let st := (shaK.zip w).foldl compressRound H
  ⟨add32 H.a st.a, add32 H.b st.b, add32 H.c st.c, add32 H.d st.d,
   add32 H.e st.e, add32 H.f st.f, add32 H.g st.g, add32 H.hh st.hh⟩

/-- SHA-256 padding: 0x80, zeros to 56 mod 64, then the 64-bit big-endian bit length. -/
def padMessage (msg : List Nat) : List Nat :=
  let bitLen := 8 * msg.length
  let padZeros := (119 - (msg.length % 64)) % 64
  msg ++ 128 :: List.replicate padZeros 0 ++
    [(bitLen >>> 56) % 256, (bitLen >>> 48) % 256, (bitLen >>> 40) % 256, (bitLen >>> 32) % 256,
     (bitLen >>> 24) % 256, (bitLen >>> 16) % 256, (bitLen >>> 8) % 256, bitLen % 256]

/-- Split a byte list into 64-byte chunks (fuel-driven so the kernel can reduce it). -/
def chunksAux : Nat → List Nat → List (List Nat)
  | 0, _ => []
  | _ + 1, [] => []
  | fuel + 1, l => l.take 64 :: chunksAux fuel (l.drop 64)

def chunks (l : List Nat) : List (List Nat) := chunksAux (l.length / 64 + 1) l

def wordBytes (w : Nat) : List Nat :=
  [(w >>> 24) % 256, (w >>> 16) % 256, (w >>> 8) % 256, w % 256]

def hashBytes (H : Hash8) : List Nat :=
  wordBytes H.a ++ wordBytes H.b ++ wordBytes H.c ++ wordBytes H.d ++
  wordBytes H.e ++ wordBytes H.f ++ wordBytes H.g ++ wordBytes H.hh

/-- SHA-256 of a byte list, as a list of 32 bytes. -/
def sha256 (msg : List Nat) : List Nat :=
  hashBytes ((chunks (padMessage msg)).foldl processChunk initHash)

/-- HMAC-SHA-256 over byte lists (block size 64). -/
def hmacSha256 (key msg : List Nat) : List Nat :=
  let k0 := if key.length > 64 then sha256 key else key
  let kp := k0 ++ List.replicate (64 - k0.length) 0
  sha256 ((kp.map (fun b => b ^^^ 0x5c)) ++ sha256 ((kp.map (fun b => b ^^^ 0x36)) ++ msg))

/-! ## UTF-8 and hex encoding -/

/-- UTF-8 encoding of a single character (as TextEncoder does). -/
def utf8Char (c : Char) : List Nat :=
  let n := c.toNat
  if n < 0x80 then [n]
  else if n < 0x800 then [0xC0 ||| (n >>> 6), 0x80 ||| (n &&& 0x3F)]
  else if n < 0x10000 then
    [0xE0 ||| (n >>> 12), 0x80 ||| ((n >>> 6) &&& 0x3F), 0x80 ||| (n &&& 0x3F)]
  else
    [0xF0 ||| (n >>> 18), 0x80 ||| ((n >>> 12) &&& 0x3F), 0x80 ||| ((n >>> 6) &&& 0x3F),
     0x80 ||| (n &&& 0x3F)]

def utf8Encode (s : String) : List Nat := (s.data.map utf8Char).flatten

def hexDigit (n : Nat) : Char := "0123456789abcdef".data.getD n '0'

/-- Hex characters of a byte list: each byte as two lowercase hex digits
(`b.toString(16).padStart(2, "0")` in the source, for bytes below 256). -/
def hexChars (bs : List Nat) : List Char :=
  (bs.map (fun b => [hexDigit (b / 16), hexDigit (b % 16)])).flatten

def hexOfBytes (bs : List Nat) : String := ⟨hexChars bs⟩

def isHexChar (c : Char) : Bool := "0123456789abcdef".data.contains c

/-- `hmacSha256Hex` from helpers.ts: HMAC-SHA-256 keyed and fed with the
UTF-8 bytes of the given strings, hex-encoded. -/
def hmacSha256Hex (key message : String) : String :=
  hexOfBytes (hmacSha256 (utf8Encode key) (utf8Encode message))

/-! ## Configuration (external collaborator, passed explicitly) -/

structure Config where
  ANONYMOUS_MODE : Bool
  BACKUP_TOKEN : String
  THINKING_PROCESSING : String
  originHeader : String
  API_ENDPOINT : String
  PRIMARY_MODEL : String
  THINKING_MODEL : String
  SEARCH_MODEL : String
  AIR_MODEL : String
  PRIMARY_MODEL_NEW : String
  THINKING_MODEL_NEW : String
  SEARCH_MODEL_NEW : String
deriving DecidableEq

/-! ## Signature schemes -/

structure SignaturePayload where
  signature : String
  timestamp : Nat
deriving DecidableEq

/-- The 5-minute-bucket intermediate key of the current signature scheme. -/
def chatIntermediateKey (timestampMs : Nat) : String :=
  hmacSha256Hex "junjie" (toString (timestampMs / 300000))

/-- `generateChatSignature` from helpers.ts; `timestampMs` is the `Date.now()` reading. -/
def generateChatSignature (e t : String) (timestampMs : Nat) : SignaturePayload :=
  let n := timestampMs / (5 * 60 * 1000)
  let intermediateKey := hmacSha256Hex "junjie" (toString n)
  { signature := hmacSha256Hex intermediateKey (e ++ "|" ++ t ++ "|" ++ toString timestampMs),
    timestamp := timestampMs }

/-- `generateLegacySignatureHeaders` from helpers.ts; `nowMs` is the `Date.now()`
reading and `randomBytes` the 8 bytes drawn from `crypto.getRandomValues`. -/
def generateLegacySignatureHeaders (token : String) (body : String) (method : String)
    (nowMs : Nat) (randomBytes : List Nat) : List (String × String) :=
  let timestamp := toString nowMs
  let nonce : String := ⟨(hexChars randomBytes).take 16⟩
  let signString := method ++ "\n" ++ timestamp ++ "\n" ++ nonce ++ "\n" ++ body
  let signatureHex := hmacSha256Hex token signString
  [("X-Timestamp", timestamp), ("X-Nonce", nonce), ("X-Signature", signatureHex)]

/-! ## Shape lemmas for the digests -/

theorem hashBytes_length (H : Hash8) : (hashBytes H).length = 32 := by
  simp [hashBytes, wordBytes]

theorem sha256_length (msg : List Nat) : (sha256 msg).length = 32 :=
  hashBytes_length _

theorem hashBytes_lt (H : Hash8) : ∀ b ∈ hashBytes H, b < 256 := by
  intro b hb
  simp [hashBytes, wordBytes] at hb
  rcases hb with h | h | h | h | h | h | h | h <;>
    rcases h with h | h | h | h <;> omega

theorem sha256_lt (msg : List Nat) : ∀ b ∈ sha256 msg, b < 256 :=
  hashBytes_lt _

theorem hmacSha256_length (key msg : List Nat) : (hmacSha256 key msg).length = 32 :=
  sha256_length _

theorem hexChars_length (bs : List Nat) : (hexChars bs).length = 2 * bs.length := by
  induction bs with
  | nil => simp [hexChars]
  | cons b t ih =>
      simp only [hexChars, List.map_cons, List.flatten_cons] at *
      simp [ih]
      omega

theorem hexDigit_isHex (n : Nat) : isHexChar (hexDigit n) = true := by
  by_cases h : n < 16
  · interval_cases n <;> decide
  · have : hexDigit n = '0' := by
      unfold hexDigit
      apply List.getD_eq_default
      simp
      omega
    rw [this]
    decide

theorem hexChars_isHex (bs : List Nat) : ∀ c ∈ hexChars bs, isHexChar c = true := by
  intro c hc
  simp only [hexChars, List.mem_flatten, List.mem_map] at hc
  obtain ⟨l, ⟨b, _, rfl⟩, hcl⟩ := hc
  simp at hcl
  rcases hcl with rfl | rfl <;> exact hexDigit_isHex _

theorem hexOfBytes_length (bs : List Nat) : (hexOfBytes bs).length = 2 * bs.length :=
  hexChars_length bs

theorem hmacSha256Hex_length (key msg : String) : (hmacSha256Hex key msg).length = 64 := by
  show (hexChars (hmacSha256 (utf8Encode key) (utf8Encode msg))).length = 64
  rw [hexChars_length, hmacSha256_length]

/-! ## Small string utilities mirroring the JavaScript ones -/

/-- Does `pat` occur somewhere in the char list (JS `String.prototype.includes`)? -/
def containsPat (pat : List Char) : List Char → Bool
  | [] => pat.isPrefixOf []
  | c :: t => pat.isPrefixOf (c :: t) || containsPat pat t

def strIncludes (s pat : String) : Bool := containsPat pat.data s.data

/-- JS `String.prototype.split` with a non-empty literal separator (fuel-driven scan). -/
def splitOnGo (pat : List Char) : Nat → List Char → List Char → List (List Char)
  | 0, l, cur => [cur.reverse ++ l]
  | _ + 1, [], cur => [cur.reverse]
  | fuel + 1, c :: t, cur =>
      if !pat.isEmpty && pat.isPrefixOf (c :: t) then
        cur.reverse :: splitOnGo pat fuel ((c :: t).drop pat.length) []
      else
        splitOnGo pat fuel t (c :: cur)

def jsSplit (s pat : String) : List String :=
  (splitOnGo pat.data (s.data.length + 1) s.data []).map (fun l => ⟨l⟩)

/-- `ua.split(pat)[1].split(".")[0]` — the version-extraction idiom of the source. -/
def seg1dot (ua pat : String) : String :=
  (jsSplit ((jsSplit ua pat).getD 1 "") ".").getD 0 ""

/-- JS whitespace test restricted to the ASCII whitespace the source can meet. -/
def isWs (c : Char) : Bool := c = ' ' || c = '\t' || c = '\n' || c = '\r'

/-- JS `String.prototype.trim`: drop whitespace from both ends. -/
def jsTrim (s : String) : String := ⟨(s.data.dropWhile isWs).rdropWhile isWs⟩

/-! ## Header builder (`getBrowserHeaders`) -/

def uaChrome : String :=
  "Mozilla/5.0 (Windows NT 10.0; Win64; x64) AppleWebKit/537.36 (KHTML, like Gecko) Chrome/139.0.0.0 Safari/537.36"

def uaEdge : String :=
  "Mozilla/5.0 (Windows NT 10.0; Win64; x64) AppleWebKit/537.36 (KHTML, like Gecko) Chrome/139.0.0.0 Safari/537.36 Edg/139.0.0.0"

def uaMac : String :=
  "Mozilla/5.0 (Macintosh; Intel Mac OS X 10_15_7) AppleWebKit/537.36 (KHTML, like Gecko) Chrome/139.0.0.0 Safari/537.36"

def uaLinux : String :=
  "Mozilla/5.0 (X11; Linux x86_64) AppleWebKit/537.36 (KHTML, like Gecko) Chrome/139.0.0.0 Safari/537.36"

def uaFirefox : String :=
  "Mozilla/5.0 (Windows NT 10.0; Win64; x64; rv:109.0) Gecko/20100101 Firefox/121.0"

def uaSafari : String :=
  "Mozilla/5.0 (Macintosh; Intel Mac OS X 10_15_7) AppleWebKit/605.1.15 (KHTML, like Gecko) Version/17.1 Safari/605.1.15"

def userAgentPool : List String := [uaChrome, uaEdge, uaMac, uaLinux]

/-- The lazily built User-Agent cache; `rpick` is the random index chosen
once for the `random` entry. -/
structure UAInstance where
  chrome : String
  edge : String
  firefox : String
  safari : String
  random : String

def getUserAgentInstance (rpick : Nat) : UAInstance :=
  ⟨uaChrome, uaEdge, uaFirefox, uaSafari, userAgentPool.getD (rpick % 4) uaChrome⟩

def browserChoices : List String :=
  ["chrome", "chrome", "chrome", "edge", "edge", "firefox", "safari"]

def browserTypeOf (pick : Nat) : String := browserChoices.getD (pick % 7) ""

/-- The switch on the chosen browser type. -/
def userAgentOf (pick rpick : Nat) : String :=
  let ua := getUserAgentInstance rpick
  let browserType := browserTypeOf pick
  if browserType = "chrome" then ua.chrome
  else if browserType = "edge" then ua.edge
  else if browserType = "firefox" then ua.firefox
  else if browserType = "safari" then ua.safari
  else ua.random

def chromeVersionOf (userAgent : String) : String :=
  if strIncludes userAgent "Chrome/" then seg1dot userAgent "Chrome/" else "139"

/-- The sec-ch-ua computation (lines 185-200 of helpers.ts):
Edge-branded for Edge UAs, omitted for Firefox, generic Chromium otherwise. -/
def secChUaOf (userAgent : String) : Option String :=
  let chromeVersion := chromeVersionOf userAgent
  if strIncludes userAgent "Edg/" then
    let edgeVersion := seg1dot userAgent "Edg/"
    some ("\"Microsoft Edge\";v=\"" ++ edgeVersion ++ "\", \"Chromium\";v=\"" ++ chromeVersion ++
      "\", \"Not_A Brand\";v=\"24\"")
  else if strIncludes userAgent "Firefox/" then none
  else
    some ("\"Not_A Brand\";v=\"8\", \"Chromium\";v=\"" ++ chromeVersion ++
      "\", \"Google Chrome\";v=\"" ++ chromeVersion ++ "\"")

/-- The sec-ch-ua value produced for the (fixed) Edge identity of the pool. -/
def secChUaEdgeValue : String :=
  "\"Microsoft Edge\";v=\"139\", \"Chromium\";v=\"139\", \"Not_A Brand\";v=\"24\""

/-- The generic Chromium-branded sec-ch-ua value for the non-Edge identities. -/
def secChUaChromiumValue : String :=
  "\"Not_A Brand\";v=\"8\", \"Chromium\";v=\"139\", \"Google Chrome\";v=\"139\""

/-- The headers object of `getBrowserHeaders`, in construction order. -/
def assembleHeaders (cfg : Config) (userAgent : String) (secChUa : Option String)
    (refererChatId : String) : List (String × String) :=
  let base : List (String × String) :=
    [("Content-Type", "application/json"),
     ("Accept", "application/json, text/event-stream"),
     ("User-Agent", userAgent),
     ("Accept-Language", "zh-CN,zh;q=0.9,en;q=0.8,en-US;q=0.7"),
     ("sec-ch-ua-mobile", "?0"),
     ("sec-ch-ua-platform", "\"Windows\""),
     ("sec-fetch-dest", "empty"),
     ("sec-fetch-mode", "cors"),
     ("sec-fetch-site", "same-origin"),
     ("X-FE-Version", "prod-fe-1.0.79"),
     ("Origin", cfg.originHeader),
     ("Cache-Control", "no-cache"),
     ("Pragma", "no-cache")]
  let withSec := match secChUa with
    | some v => base ++ [("sec-ch-ua", v)]
    | none => base
  if refererChatId ≠ "" then
    withSec ++ [("Referer", cfg.originHeader ++ "/c/" ++ refererChatId)]
  else withSec

/-- `getBrowserHeaders` from helpers.ts; `pick` drives the random browser-type
draw and `rpick` the random pool entry of the UA cache. -/
def getBrowserHeaders (cfg : Config) (pick rpick : Nat) (refererChatId : String) :
    List (String × String) :=
  assembleHeaders cfg (userAgentOf pick rpick) (secChUaOf (userAgentOf pick rpick)) refererChatId

/-! ## Token provider -/

deriving instance DecidableEq for Except

/-- The observable outcome of the `GET origin/api/v1/auths/` call:
`ok`/`status` from the HTTP layer, `payload` the result of `response.json()`
(`Except.error` when parsing throws), and inside it the optional `token` field. -/
structure AuthHttp where
  ok : Bool
  status : Nat
  payload : Except Unit (Option String)
deriving DecidableEq

/-- `getAnonymousToken` from helpers.ts, over the outcome of its single fetch:
raises (Except.error) on network failure, non-success status, JSON failure, or
a falsy token field. -/
def getAnonymousToken (r : Except Unit AuthHttp) : Except String String :=
  match r with
  | .error _ => .error "network"
  | .ok resp =>
      if !resp.ok then .error ("anon token status=" ++ toString resp.status)
      else
        match resp.payload with
        | .error _ => .error "json"
        | .ok tok? =>
            match tok? with
            | some t => if t = "" then .error "anon token empty" else .ok t
            | none => .error "anon token empty"

/-- `getAuthToken` from helpers.ts: anonymous token when configured and
available, otherwise the configured backup token. -/
def getAuthToken (cfg : Config) (r : Except Unit AuthHttp) : String :=
  if cfg.ANONYMOUS_MODE then
    match getAnonymousToken r with
    | .ok token => token
    | .error _ => cfg.BACKUP_TOKEN
  else cfg.BACKUP_TOKEN

/-! ## Messages and extraction of the last user message text -/

structure ContentPart where
  text : Option String
deriving DecidableEq

/-- The `content` field of a message: a string, an array of parts, or anything
else (null, undefined, an object, ...). -/
inductive MsgContent where
  | str (s : String)
  | parts (l : List ContentPart)
  | other
deriving DecidableEq

structure Message where
  role : String
  content : MsgContent
  reasoning_content : Option String
deriving DecidableEq

/-- `extractMessageText` from helpers.ts. -/
def extractMessageText (message : Message) : String :=
  match message.content with
  | .str s => s
  | .parts l => jsTrim (String.join (l.map (fun part => part.text.getD "")))
  | .other =>
      match message.reasoning_content with
      | some s => s
      | none => ""

/-- The backwards scan of `getLastUserMessageContent`: first user-role message
(from the end) whose extracted text is non-empty. -/
def lastUserScan : List Message → Option String
  | [] => none
  | msg :: rest =>
      if msg.role == "user" && extractMessageText msg != "" then some (extractMessageText msg)
      else lastUserScan rest

/-- `getLastUserMessageContent` from helpers.ts. -/
def getLastUserMessageContent (messages : List Message) : String :=
  match lastUserScan messages.reverse with
  | some content => content
  | none =>
      match messages.getLast? with
      | some fallback => extractMessageText fallback
      | none => ""

/-! ## transformThinkingContent -/

/-- After an occurrence of a pattern's first char, drop everything up to and
including the first occurrence of `pat`; `none` when `pat` does not occur. -/
def dropThrough (pat : List Char) : List Char → Option (List Char)
  | [] => if pat.isEmpty then some [] else none
  | c :: t => if pat.isPrefixOf (c :: t) then some ((c :: t).drop pat.length) else dropThrough pat t

/-- One global pass of `replace(/<summary>[\s\S]*?<\/summary>/g, "")`:
each leftmost `<summary>` with a closing tag somewhere after it is removed up
to the nearest `</summary>`; an unclosed opening tag can never match. -/
def removeSummaryAux : Nat → List Char → List Char
  | 0, l => l
  | fuel + 1, l =>
      match l with
      | [] => []
      | c :: t =>
          if ("<summary>".data).isPrefixOf (c :: t) then
            match dropThrough ("</summary>".data) ((c :: t).drop 9) with
            | some rest => removeSummaryAux fuel rest
            | none => c :: t
          else c :: removeSummaryAux fuel t

def removeSummaryBlocks (s : String) : String := ⟨removeSummaryAux (s.data.length + 1) s.data⟩

/-- Global literal replacement (JS `replace(/pat/g, repl)` for a literal
pattern): leftmost-first, the replacement text is not rescanned. -/
def replaceAllAux (pat repl : List Char) : Nat → List Char → List Char
  | 0, l => l
  | _ + 1, [] => []
  | fuel + 1, c :: t =>
      if !pat.isEmpty && pat.isPrefixOf (c :: t) then
        repl ++ replaceAllAux pat repl fuel ((c :: t).drop pat.length)
      else c :: replaceAllAux pat repl fuel t

def replaceAllStr (s pat repl : String) : String :=
  ⟨replaceAllAux pat.data repl.data (s.data.length + 1) s.data⟩

/-- Global pass of `replace(/<details[^>]*>/g, repl)`: each `<details` is
consumed together with everything up to the next `>`; with no `>` left the
pattern can no longer match. -/
def replaceDetailsAux (repl : List Char) : Nat → List Char → List Char
  | 0, l => l
  | _ + 1, [] => []
  | fuel + 1, c :: t =>
      if ("<details".data).isPrefixOf (c :: t) then
        match ((c :: t).drop 8).dropWhile (fun ch => ch ≠ '>') with
        | '>' :: r => repl ++ replaceDetailsAux repl fuel r
        | _ => c :: t
      else c :: replaceDetailsAux repl fuel t

def replaceDetailsOpen (s repl : String) : String :=
  ⟨replaceDetailsAux repl.data (s.data.length + 1) s.data⟩

/-- The three literal tag removals of transformThinkingContent, in source order. -/
def stripFixedTags (s : String) : String :=
  replaceAllStr (replaceAllStr (replaceAllStr s "</thinking>" "") "<Full>" "") "</Full>" ""

/-- The mode-dependent handling of details tags. -/
def detailsPassFor (mode : String) (s : String) : String :=
  if mode = "think" then replaceAllStr (replaceDetailsOpen s "<span>") "</details>" "</span>"
  else if mode = "strip" then replaceAllStr (replaceDetailsOpen s "") "</details>" ""
  else s

/-- `replace(/^> /gm, "")`: drop a `"> "` right after the string start and
right after every line terminator (scanning the original string once). -/
def stripLineStartsAux : List Char → List Char
  | [] => []
  | '\n' :: '>' :: ' ' :: t => '\n' :: stripLineStartsAux t
  | '\r' :: '>' :: ' ' :: t => '\r' :: stripLineStartsAux t
  | c :: t => c :: stripLineStartsAux t

def stripLineStarts (s : String) : String :=
  ⟨stripLineStartsAux (match s.data with
    | '>' :: ' ' :: t => t
    | l => l)⟩

/-- `transformThinkingContent` from helpers.ts. -/
def transformThinkingContent (cfg : Config) (content : String) : String :=
  let c1 := removeSummaryBlocks content
  let c2 := stripFixedTags c1
  let c3 := jsTrim c2
  let c4 := detailsPassFor cfg.THINKING_PROCESSING c3
  let c5 := stripLineStarts c4
  let c6 := replaceAllStr c5 "\n> " "\n"
  jsTrim c6

/-! ## Model fetcher -/

structure ZAIModelInfo where
  name : Option String
  created_at : Option Nat
  user_id : Option String
deriving DecidableEq

/-- A model descriptor as it appears in the provider's JSON; `extra` stands
for any further fields the JSON carries. -/
structure ZAIModel where
  id : String
  name : Option String
  display_name : Option String
  created : Option Nat
  owned_by : Option String
  info : Option ZAIModelInfo
  extra : List (String × String)
deriving DecidableEq

/-- Outcome of the `GET https://chat.z.ai/api/models` call: HTTP layer plus the
parsed `data` field (`payload = Except.error` when `response.json()` throws). -/
structure ModelsHttp where
  ok : Bool
  status : Nat
  payload : Except Unit (Option (List ZAIModel))
deriving DecidableEq

/-- `fetchLatestModels` from model_fetcher.ts, over the outcomes of its
anonymous-token call and its models fetch: every failure yields `[]`. -/
def fetchLatestModels (anon : Except Unit String) (r : Except Unit ModelsHttp) :
    List ZAIModel :=
  match anon with
  | .error _ => []
  | .ok _ =>
      match r with
      | .error _ => []
      | .ok resp =>
          if !resp.ok then []
          else
            match resp.payload with
            | .error _ => []
            | .ok data? => data?.getD []

/-- `getDefaultModels` from model_fetcher.ts; `now` is the epoch-seconds reading. -/
def getDefaultModels (cfg : Config) (now : Nat) : List ZAIModel :=
  [⟨cfg.PRIMARY_MODEL, some cfg.PRIMARY_MODEL, none, some now, some "z.ai", none, []⟩,
   ⟨cfg.THINKING_MODEL, some cfg.THINKING_MODEL, none, some now, some "z.ai", none, []⟩,
   ⟨cfg.SEARCH_MODEL, some cfg.SEARCH_MODEL, none, some now, some "z.ai", none, []⟩,
   ⟨cfg.AIR_MODEL, some cfg.AIR_MODEL, none, some now, some "z.ai", none, []⟩,
   ⟨cfg.PRIMARY_MODEL_NEW, some cfg.PRIMARY_MODEL_NEW, none, some now, some "z.ai", none, []⟩,
   ⟨cfg.THINKING_MODEL_NEW, some cfg.THINKING_MODEL_NEW, none, some now, some "z.ai", none, []⟩,
   ⟨cfg.SEARCH_MODEL_NEW, some cfg.SEARCH_MODEL_NEW, none, some now, some "z.ai", none, []⟩]

/-- JS `a || b` for an optional string field: falsy (absent or empty) falls back. -/
def jsOrStr (v : Option String) (fb : String) : String :=
  match v with
  | some s => if s = "" then fb else s
  | none => fb

/-- JS `a || b` for an optional number field: falsy (absent or zero) falls back. -/
def jsOrNat (v : Option Nat) (fb : Nat) : Nat :=
  match v with
  | some n => if n = 0 then fb else n
  | none => fb

/-- The object literal a fetched model is overlaid with (lines 144-149 of
model_fetcher.ts); `nowOverlay` is the epoch-seconds reading of the overlay. -/
def mergeModel (nowOverlay : Nat) (m : ZAIModel) : ZAIModel :=
  { id := m.id,
    name := some (jsOrStr m.name (jsOrStr (m.info.bind ZAIModelInfo.name) m.id)),
    display_name := none,
    created := some (jsOrNat m.created (jsOrNat (m.info.bind ZAIModelInfo.created_at) nowOverlay)),
    owned_by := some (jsOrStr m.owned_by (jsOrStr (m.info.bind ZAIModelInfo.user_id) "z.ai")),
    info := none,
    extra := [] }

/-- JS `Map.prototype.set`: replace in place when the key exists, append otherwise. -/
def mapSet (l : List (String × ZAIModel)) (k : String) (v : ZAIModel) :
    List (String × ZAIModel) :=
  if l.any (fun p => p.1 = k) then
    l.map (fun p => if p.1 = k then (k, v) else p)
  else l ++ [(k, v)]

/-- `getAvailableModels` from model_fetcher.ts; the fetch outcome is passed in
(`Except.error` models a thrown fetch), `now`/`nowOverlay` the two epoch-seconds
readings. -/
def getAvailableModels (cfg : Config) (now nowOverlay : Nat)
    (fetched : Except Unit (List ZAIModel)) : List ZAIModel :=
  let defaultModels := getDefaultModels cfg now
  match fetched with
  | .error _ => defaultModels
  | .ok latestModels =>
      if latestModels.length > 0 then
        let m0 := defaultModels.foldl (fun acc model => mapSet acc model.id model) []
        let m1 := latestModels.foldl (fun acc model => mapSet acc model.id (mergeModel nowOverlay model)) m0
        m1.map (fun p => p.2)
      else defaultModels

/-! ## Upstream caller -/

/-- `URLSearchParams.set`: replace the value in place when the name exists,
append otherwise. -/
def querySet (q : List (String × String)) (k v : String) : List (String × String) :=
  if q.any (fun p => p.1 = k) then
    q.map (fun p => if p.1 = k then (k, v) else p)
  else q ++ [(k, v)]

/-- The caller-supplied upstream request: `messages` is `none` when the field
is not an array, `params` entries carry `none` for null/undefined values, and
`rest` stands for the remaining provider-specific fields of the body. -/
structure UpstreamRequest where
  messages : Option (List Message)
  params : Option (List (String × Option String))
  rest : List (String × String)
deriving DecidableEq

structure HttpResponse where
  status : Nat
deriving DecidableEq

/-- Everything `callUpstreamApi` hands to `fetch`: endpoint, query string,
headers, JSON body payload, and the timeout. -/
structure UpstreamCallSpec where
  endpoint : String
  query : List (String × String)
  headers : List (String × String)
  bodyPayload : UpstreamRequest
  timeoutMs : Nat

/-- The request `callUpstreamApi` builds (lines 354-398 of helpers.ts);
`requestId`/`userId` are the two random UUIDs, `nowMs` the `Date.now()` reading
for the query timestamp and `sigNowMs` the one inside `generateChatSignature`. -/
def buildUpstreamCall (cfg : Config) (upstreamReq : UpstreamRequest)
    (chatId authToken : String) (pick rpick : Nat) (requestId userId : String)
    (nowMs sigNowMs : Nat) : UpstreamCallSpec :=
  let headers := getBrowserHeaders cfg pick rpick chatId ++
    [("Authorization", "Bearer " ++ authToken)]
  let messages := upstreamReq.messages.getD []
  let lastMessageContent := getLastUserMessageContent messages
  let signatureSource := "requestId," ++ requestId ++ ",timestamp," ++ toString nowMs ++
    ",user_id," ++ userId
  let sig := generateChatSignature signatureSource lastMessageContent sigNowMs
  let headers2 := headers ++ [("X-Signature", sig.signature)]
  let q0 := querySet (querySet (querySet (querySet [] "requestId" requestId)
    "timestamp" (toString nowMs)) "user_id" userId)
    "signature_timestamp" (toString sig.timestamp)
  let q1 := match upstreamReq.params with
    | some ps => ps.foldl (fun acc kv =>
        match kv.2 with
        | some v => querySet acc kv.1 v
        | none => acc) q0
    | none => q0
  { endpoint := cfg.API_ENDPOINT,
    query := q1,
    headers := headers2,
    bodyPayload := { upstreamReq with params := none },
    timeoutMs := 60000 }

/-- `callUpstreamApi` from helpers.ts: issue the built request through the
transport and hand the outcome back untouched — no try/catch, no status check. -/
def callUpstreamApi (cfg : Config) (upstreamReq : UpstreamRequest)
    (chatId authToken : String) (pick rpick : Nat) (requestId userId : String)
    (nowMs sigNowMs : Nat) (transport : UpstreamCallSpec → Except String HttpResponse) :
    Except String HttpResponse :=
  transport (buildUpstreamCall cfg upstreamReq chatId authToken pick rpick requestId userId
    nowMs sigNowMs)

/-! ## Concrete sample data used by witnesses and counterexamples -/

def cfgEx : Config :=
  ⟨true, "backup-token", "think", "https://chat.z.ai", "https://chat.z.ai/api/chat/completions",
   "m1", "m2", "m3", "m4", "m5", "m6", "m7"⟩

def reqEx : UpstreamRequest :=
  ⟨some [⟨"user", .str "hi", none⟩], some [("a", some "1"), ("b", none)], []⟩

/-! ## Claim theorems -/

/-- Claim C3: generateChatSignature returns the clock reading as its timestamp
and, as its signature, the hex HMAC-SHA256 keyed by the bucket intermediate key
of the message e-bar-t-bar-timestamp; timestamps in the same 5-minute bucket
yield identical intermediate keys. -/
theorem claim_C3 (e t : String) (timestampMs ms1 ms2 : Nat)
    (hbucket : ms1 / 300000 = ms2 / 300000) :
    (generateChatSignature e t timestampMs).timestamp = timestampMs ∧
    (generateChatSignature e t timestampMs).signature =
      hmacSha256Hex (chatIntermediateKey timestampMs)
        (e ++ "|" ++ t ++ "|" ++ toString timestampMs) ∧
    chatIntermediateKey ms1 = chatIntermediateKey ms2 := by
  refine ⟨rfl, rfl, ?_⟩
  unfold chatIntermediateKey
  rw [hbucket]

/-- Witness for claim C3 at concrete inputs. -/
theorem claim_C3_witness :
    (generateChatSignature "e0" "t0" 3).timestamp = 3 ∧
    (generateChatSignature "e0" "t0" 3).signature =
      hmacSha256Hex (chatIntermediateKey 3) ("e0" ++ "|" ++ "t0" ++ "|" ++ toString 3) ∧
    chatIntermediateKey 1 = chatIntermediateKey 2 :=
  claim_C3 "e0" "t0" 3 1 2 (by decide)

/-- Claim C5: the legacy signature headers carry the decimal clock reading, a
16-hex-character nonce whose 16-character truncation never shortens the hex of
the 8 random bytes, and a 64-hex-character HMAC-SHA256 keyed by the token over
the newline-joined method, timestamp, nonce and body. -/
theorem claim_C5 (token body method : String) (nowMs : Nat) (randomBytes : List Nat)
    (hlen : randomBytes.length = 8) (hbytes : ∀ b ∈ randomBytes, b < 256) :
    ∃ nonce signature,
      generateLegacySignatureHeaders token body method nowMs randomBytes =
        [("X-Timestamp", toString nowMs), ("X-Nonce", nonce), ("X-Signature", signature)] ∧
      nonce = hexOfBytes randomBytes ∧
      nonce.length = 16 ∧
      (∀ c ∈ nonce.data, isHexChar c = true) ∧
      signature = hmacSha256Hex token
        (method ++ "\n" ++ toString nowMs ++ "\n" ++ nonce ++ "\n" ++ body) ∧
      signature.length = 64 ∧
      (∀ c ∈ signature.data, isHexChar c = true) := by
  have htake : (hexChars randomBytes).take 16 = hexChars randomBytes :=
    List.take_of_length_le (by rw [hexChars_length, hlen])
  refine ⟨⟨(hexChars randomBytes).take 16⟩, _, rfl, ?_, ?_, ?_, rfl, ?_, ?_⟩
  · exact congrArg String.mk htake
  · show ((hexChars randomBytes).take 16).length = 16
    rw [htake, hexChars_length, hlen]
  · intro c hc
    exact hexChars_isHex randomBytes c (htake ▸ hc)
  · exact hmacSha256Hex_length _ _
  · intro c hc
    exact hexChars_isHex _ c hc

/-- Witness for claim C5 at concrete inputs. -/
theorem claim_C5_witness :
    ∃ nonce signature,
      generateLegacySignatureHeaders "secret" "" "GET" 1700000000000 [0, 1, 2, 3, 4, 5, 6, 7] =
        [("X-Timestamp", toString 1700000000000), ("X-Nonce", nonce), ("X-Signature", signature)] ∧
      nonce = hexOfBytes [0, 1, 2, 3, 4, 5, 6, 7] ∧
      nonce.length = 16 ∧
      (∀ c ∈ nonce.data, isHexChar c = true) ∧
      signature = hmacSha256Hex "secret"
        ("GET" ++ "\n" ++ toString 1700000000000 ++ "\n" ++ nonce ++ "\n" ++ "") ∧
      signature.length = 64 ∧
      (∀ c ∈ signature.data, isHexChar c = true) :=
  claim_C5 "secret" "" "GET" 1700000000000 [0, 1, 2, 3, 4, 5, 6, 7] (by decide) (by decide)

/-- Claim C7: getAvailableModels returns the unmodified default list whenever
the fetch throws or yields an empty list. -/
theorem claim_C7 (cfg : Config) (now nowOverlay : Nat) (fetched : Except Unit (List ZAIModel))
    (h : fetched = .error () ∨ fetched = .ok []) :
    getAvailableModels cfg now nowOverlay fetched = getDefaultModels cfg now := by
  rcases h with rfl | rfl <;> rfl

/-- Witness for claim C7 at concrete inputs. -/
theorem claim_C7_witness :
    getAvailableModels cfgEx 1 2 (.ok []) = getDefaultModels cfgEx 1 :=
  claim_C7 cfgEx 1 2 (.ok []) (Or.inr rfl)

/-- Claim C6: getAuthToken always yields a string — the anonymous token when
anonymous mode is on and the anonymous fetch succeeds, the backup token
otherwise — and fetchLatestModels yields the empty list on anonymous-token
failure, thrown fetch, non-success status, or JSON failure. -/
theorem claim_C6 (cfg : Config) (r : Except Unit AuthHttp)
    (anon : Except Unit String) (mr : Except Unit ModelsHttp) :
    (∀ t, cfg.ANONYMOUS_MODE = true → getAnonymousToken r = .ok t →
      getAuthToken cfg r = t) ∧
    (cfg.ANONYMOUS_MODE = false → getAuthToken cfg r = cfg.BACKUP_TOKEN) ∧
    ((getAnonymousToken r).isOk = false → getAuthToken cfg r = cfg.BACKUP_TOKEN) ∧
    (anon = .error () → fetchLatestModels anon mr = []) ∧
    (mr = .error () → fetchLatestModels anon mr = []) ∧
    (∀ resp, mr = .ok resp → resp.ok = false → fetchLatestModels anon mr = []) ∧
    (∀ resp, mr = .ok resp → resp.payload = .error () → fetchLatestModels anon mr = []) := by
  refine ⟨?_, ?_, ?_, ?_, ?_, ?_, ?_⟩
  · intro t hmode hok
    simp [getAuthToken, hmode, hok]
  · intro hmode
    simp [getAuthToken, hmode]
  · intro hfail
    unfold getAuthToken
    cases hmode : cfg.ANONYMOUS_MODE
    · simp
    · simp only [if_pos rfl]
      cases hok : getAnonymousToken r
      · rfl
      · rw [hok] at hfail
        simp [Except.isOk, Except.toBool] at hfail
  · intro h
    subst h
    rfl
  · intro h
    subst h
    cases anon <;> rfl
  · intro resp hmr hok
    subst hmr
    cases anon with
    | error _ => rfl
    | ok _ => simp [fetchLatestModels, hok]
  · intro resp hmr hpay
    subst hmr
    cases anon with
    | error _ => rfl
    | ok _ =>
        cases hok : resp.ok
        · simp [fetchLatestModels, hok]
        · simp [fetchLatestModels, hok, hpay]

/-- Witness for claim C6 at concrete inputs. -/
theorem claim_C6_witness :
    getAuthToken cfgEx (.ok ⟨true, 200, .ok (some "anon-tok")⟩) = "anon-tok" ∧
    fetchLatestModels (.error ()) (.ok ⟨true, 200, .ok (some [])⟩) = [] ∧
    fetchLatestModels (.ok "tok") (.ok ⟨false, 503, .ok (some [])⟩) = [] :=
  ⟨(claim_C6 cfgEx (.ok ⟨true, 200, .ok (some "anon-tok")⟩) (.error ())
      (.ok ⟨true, 200, .ok (some [])⟩)).1 "anon-tok" rfl (by decide),
   (claim_C6 cfgEx (.ok ⟨true, 200, .ok (some "anon-tok")⟩) (.error ())
      (.ok ⟨true, 200, .ok (some [])⟩)).2.2.2.1 rfl,
   (claim_C6 cfgEx (.ok ⟨true, 200, .ok (some "anon-tok")⟩) (.ok "tok")
      (.ok ⟨false, 503, .ok (some [])⟩)).2.2.2.2.2.1 ⟨false, 503, .ok (some [])⟩ rfl rfl⟩

/-! ### Claim C10 -/

theorem dropWhile_fixed_of_initial {α : Type} {p : α → Bool} {l1 l2 : List α}
    (hpre : l2 <+: l1) (hfix : l1.dropWhile p = l1) : l2.dropWhile p = l2 := by
  cases l2 with
  | nil => rfl
  | cons a t =>
      obtain ⟨r, hr⟩ := hpre
      by_cases hp : p a
      · exfalso
        rw [← hr, List.cons_append, List.dropWhile_cons, if_pos hp] at hfix
        have hle : (List.dropWhile p (t ++ r)).length ≤ (t ++ r).length :=
          (List.dropWhile_sublist p).length_le
        have hlen := congrArg List.length hfix
        rw [List.length_cons] at hlen
        omega
      · rw [List.dropWhile_cons, if_neg hp]

theorem jsTrim_idem (s : String) : jsTrim (jsTrim s) = jsTrim s := by
  show (⟨List.rdropWhile isWs (List.dropWhile isWs
      (List.rdropWhile isWs (List.dropWhile isWs s.data)))⟩ : String) =
    ⟨List.rdropWhile isWs (List.dropWhile isWs s.data)⟩
  rw [dropWhile_fixed_of_initial (List.rdropWhile_prefix isWs _)
    (List.dropWhile_idempotent isWs s.data)]
  rw [List.rdropWhile_idempotent]

/-- Modelled from claim C10's words (for comparison with the source): summary
blocks and the literal tags removed, details tags handled per mode, and the
result trimmed — with no line-prefix removal and no trim before the details
pass. -/
def claimTransformC10 (mode : String) (s : String) : String :=
  jsTrim (detailsPassFor mode (stripFixedTags (removeSummaryBlocks s)))

/-- Counterexample to claim C10 as stated: on " > hi" the code first trims
(before the details pass) and then strips the line-leading quote prefix,
returning "hi", while the claimed transformation returns "> hi". -/
theorem claim_C10_counterexample :
    cfgEx.THINKING_PROCESSING = "think" ∧
    transformThinkingContent cfgEx " > hi" = "hi" ∧
    claimTransformC10 "think" " > hi" = "> hi" ∧
    transformThinkingContent cfgEx " > hi" ≠ claimTransformC10 "think" " > hi" := by
  refine ⟨rfl, by decide, by decide, by decide⟩

/-- Claim C10 as amended: transformThinkingContent removes every non-greedy
summary block and the literal closing-thinking and Full tags, trims, applies
the mode-dependent details rewriting (span tags for "think", removal for
"strip"), then strips every line-start "> " prefix and every newline-"> "
sequence, and trims again — so its result carries no leading or trailing
whitespace. -/
theorem claim_C10 (cfg : Config) (s : String) :
    transformThinkingContent cfg s =
      jsTrim (replaceAllStr (stripLineStarts (detailsPassFor cfg.THINKING_PROCESSING
        (jsTrim (stripFixedTags (removeSummaryBlocks s))))) "\n> " "\n") ∧
    jsTrim (transformThinkingContent cfg s) = transformThinkingContent cfg s :=
  ⟨rfl, jsTrim_idem _⟩

/-! ### Header-builder lemmas and claim C8 -/

theorem assembleHeaders_lookups (cfg : Config) (ua : String) (sec : Option String)
    (ref : String) :
    ((assembleHeaders cfg ua sec ref).lookup "Content-Type" = some "application/json") ∧
    ((assembleHeaders cfg ua sec ref).lookup "Accept" =
      some "application/json, text/event-stream") ∧
    ((assembleHeaders cfg ua sec ref).lookup "User-Agent" = some ua) ∧
    ((assembleHeaders cfg ua sec ref).lookup "Origin" = some cfg.originHeader) ∧
    ((assembleHeaders cfg ua sec ref).lookup "sec-ch-ua" = sec) ∧
    ((assembleHeaders cfg ua sec ref).lookup "Referer" =
      if ref ≠ "" then some (cfg.originHeader ++ "/c/" ++ ref) else none) := by
  unfold assembleHeaders
  cases sec <;> by_cases href : ref = "" <;> simp [href, List.lookup]

/-- The browser-type draw always lands in the four-name pool. -/
theorem browserTypeOf_mem (pick : Nat) :
    browserTypeOf pick = "chrome" ∨ browserTypeOf pick = "edge" ∨
    browserTypeOf pick = "firefox" ∨ browserTypeOf pick = "safari" := by
  have h7 : pick % 7 = 0 ∨ pick % 7 = 1 ∨ pick % 7 = 2 ∨ pick % 7 = 3 ∨ pick % 7 = 4 ∨
      pick % 7 = 5 ∨ pick % 7 = 6 := by omega
  rcases h7 with hk | hk | hk | hk | hk | hk | hk <;> simp [browserTypeOf, hk, browserChoices]

theorem userAgentOf_chrome (pick rpick : Nat) (hbt : browserTypeOf pick = "chrome") :
    userAgentOf pick rpick = uaChrome := by
  simp [userAgentOf, hbt, getUserAgentInstance]

theorem userAgentOf_edge (pick rpick : Nat) (hbt : browserTypeOf pick = "edge") :
    userAgentOf pick rpick = uaEdge := by
  simp [userAgentOf, hbt, getUserAgentInstance]

theorem userAgentOf_firefox (pick rpick : Nat) (hbt : browserTypeOf pick = "firefox") :
    userAgentOf pick rpick = uaFirefox := by
  simp [userAgentOf, hbt, getUserAgentInstance]

theorem userAgentOf_safari (pick rpick : Nat) (hbt : browserTypeOf pick = "safari") :
    userAgentOf pick rpick = uaSafari := by
  simp [userAgentOf, hbt, getUserAgentInstance]

/-- The identity drawn for any `pick` determines the sec-ch-ua outcome:
Firefox omits it, Edge gets the Edge-branded value, everything else the
generic Chromium-branded value. -/
theorem secChUa_cases (pick rpick : Nat) :
    (browserTypeOf pick = "firefox" ∧ secChUaOf (userAgentOf pick rpick) = none) ∨
    (browserTypeOf pick = "edge" ∧
      secChUaOf (userAgentOf pick rpick) = some secChUaEdgeValue) ∨
    (browserTypeOf pick ≠ "edge" ∧ browserTypeOf pick ≠ "firefox" ∧
      secChUaOf (userAgentOf pick rpick) = some secChUaChromiumValue) := by
  rcases browserTypeOf_mem pick with hbt | hbt | hbt | hbt
  · refine Or.inr (Or.inr ⟨by simp [hbt], by simp [hbt], ?_⟩)
    rw [userAgentOf_chrome pick rpick hbt]
    decide
  · refine Or.inr (Or.inl ⟨hbt, ?_⟩)
    rw [userAgentOf_edge pick rpick hbt]
    decide
  · refine Or.inl ⟨hbt, ?_⟩
    rw [userAgentOf_firefox pick rpick hbt]
    decide
  · refine Or.inr (Or.inr ⟨by simp [hbt], by simp [hbt], ?_⟩)
    rw [userAgentOf_safari pick rpick hbt]
    decide

/-- Claim C8: for every refererId (and every random draw) getBrowserHeaders
returns a header set containing Content-Type, Accept, User-Agent and Origin;
sec-ch-ua is present exactly when the chosen identity is not Firefox (Edge
identities get the Edge-branded value, other non-Firefox identities the
generic Chromium-branded value); and Referer equals origin/c/refererId exactly
when refererId is non-empty. -/
theorem claim_C8 (cfg : Config) (pick rpick : Nat) (refererChatId : String) :
    ((getBrowserHeaders cfg pick rpick refererChatId).lookup "Content-Type" =
      some "application/json") ∧
    ((getBrowserHeaders cfg pick rpick refererChatId).lookup "Accept" =
      some "application/json, text/event-stream") ∧
    ((getBrowserHeaders cfg pick rpick refererChatId).lookup "User-Agent" =
      some (userAgentOf pick rpick)) ∧
    ((getBrowserHeaders cfg pick rpick refererChatId).lookup "Origin" =
      some cfg.originHeader) ∧
    (((getBrowserHeaders cfg pick rpick refererChatId).lookup "sec-ch-ua").isSome ↔
      browserTypeOf pick ≠ "firefox") ∧
    (browserTypeOf pick = "edge" →
      (getBrowserHeaders cfg pick rpick refererChatId).lookup "sec-ch-ua" =
        some secChUaEdgeValue) ∧
    (browserTypeOf pick ≠ "edge" → browserTypeOf pick ≠ "firefox" →
      (getBrowserHeaders cfg pick rpick refererChatId).lookup "sec-ch-ua" =
        some secChUaChromiumValue) ∧
    (refererChatId ≠ "" →
      (getBrowserHeaders cfg pick rpick refererChatId).lookup "Referer" =
        some (cfg.originHeader ++ "/c/" ++ refererChatId)) ∧
    (refererChatId = "" →
      (getBrowserHeaders cfg pick rpick refererChatId).lookup "Referer" = none) := by
  obtain ⟨h1, h2, h3, h4, h5, h6⟩ := assembleHeaders_lookups cfg (userAgentOf pick rpick)
    (secChUaOf (userAgentOf pick rpick)) refererChatId
  have hdef : getBrowserHeaders cfg pick rpick refererChatId =
      assembleHeaders cfg (userAgentOf pick rpick) (secChUaOf (userAgentOf pick rpick))
        refererChatId := rfl
  rw [hdef]
  refine ⟨h1, h2, h3, h4, ?_, ?_, ?_, ?_, ?_⟩
  · rw [h5]
    rcases secChUa_cases pick rpick with ⟨hbt, hsec⟩ | ⟨hbt, hsec⟩ | ⟨hbt1, hbt2, hsec⟩
    · rw [hsec]
      simp [hbt]
    · rw [hsec]
      simp [hbt]
    · rw [hsec]
      simp [hbt2]
  · intro hedge
    rw [h5]
    rcases secChUa_cases pick rpick with ⟨hbt, _⟩ | ⟨_, hsec⟩ | ⟨hbt, _, _⟩
    · rw [hbt] at hedge
      simp at hedge
    · exact hsec
    · exact absurd hedge hbt
  · intro hnedge hnff
    rw [h5]
    rcases secChUa_cases pick rpick with ⟨hbt, _⟩ | ⟨hbt, _⟩ | ⟨_, _, hsec⟩
    · exact absurd hbt hnff
    · exact absurd hbt hnedge
    · exact hsec
  · intro href
    rw [h6, if_pos href]
  · intro href
    rw [h6, if_neg (by simp [href])]

/-- Witness for claim C8 at concrete inputs (pick 3 draws the Edge identity). -/
theorem claim_C8_witness :
    (getBrowserHeaders cfgEx 3 0 "chat42").lookup "Content-Type" =
      some "application/json" ∧
    (getBrowserHeaders cfgEx 3 0 "chat42").lookup "sec-ch-ua" = some secChUaEdgeValue ∧
    (getBrowserHeaders cfgEx 3 0 "chat42").lookup "Referer" =
      some (cfgEx.originHeader ++ "/c/" ++ "chat42") ∧
    (getBrowserHeaders cfgEx 3 0 "").lookup "Referer" = none :=
  ⟨(claim_C8 cfgEx 3 0 "chat42").1,
   (claim_C8 cfgEx 3 0 "chat42").2.2.2.2.2.1 (by decide),
   (claim_C8 cfgEx 3 0 "chat42").2.2.2.2.2.2.2.1 (by decide),
   (claim_C8 cfgEx 3 0 "").2.2.2.2.2.2.2.2 rfl⟩

/-! ### Invariants of the JS-Map-style merge -/

theorem mapSet_keys_nodup {l : List (String × ZAIModel)} {k : String} {v : ZAIModel}
    (hl : (l.map Prod.fst).Nodup) : ((mapSet l k v).map Prod.fst).Nodup := by
  unfold mapSet
  split
  · have : (l.map (fun p => if p.1 = k then (k, v) else p)).map Prod.fst = l.map Prod.fst := by
      rw [List.map_map]
      apply List.map_congr_left
      intro p _
      by_cases hp : p.1 = k <;> simp [hp]
    rw [this]
    exact hl
  · next hnone =>
      rw [List.map_append]
      simp only [List.map_cons, List.map_nil]
      rw [List.nodup_append]
      refine ⟨hl, List.nodup_singleton _, ?_⟩
      intro x hx hk
      simp at hk
      subst hk
      obtain ⟨p, hp, rfl⟩ := List.mem_map.mp hx
      exact hnone (List.any_eq_true.mpr ⟨p, hp, by simp⟩)

theorem mapSet_vals_id {l : List (String × ZAIModel)} {k : String} {v : ZAIModel}
    (hl : ∀ p ∈ l, p.2.id = p.1) (hv : v.id = k) : ∀ p ∈ mapSet l k v, p.2.id = p.1 := by
  unfold mapSet
  split
  · intro p hp
    obtain ⟨q, hq, rfl⟩ := List.mem_map.mp hp
    by_cases hqk : q.1 = k <;> simp [hqk, hv, hl q hq]
  · intro p hp
    rcases List.mem_append.mp hp with hp | hp
    · exact hl p hp
    · simp at hp
      subst hp
      exact hv

theorem mapSet_vals_mem {P : ZAIModel → Prop} {l : List (String × ZAIModel)}
    {k : String} {v : ZAIModel} (hl : ∀ p ∈ l, P p.2) (hv : P v) :
    ∀ p ∈ mapSet l k v, P p.2 := by
  unfold mapSet
  split
  · intro p hp
    obtain ⟨q, hq, rfl⟩ := List.mem_map.mp hp
    by_cases hqk : q.1 = k <;> simp [hqk, hv, hl q hq]
  · intro p hp
    rcases List.mem_append.mp hp with hp | hp
    · exact hl p hp
    · simp at hp
      subst hp
      exact hv

theorem foldl_mapSet_keys_nodup (g : ZAIModel → String) (f : ZAIModel → ZAIModel) :
    ∀ (l : List ZAIModel) (acc : List (String × ZAIModel)),
      (acc.map Prod.fst).Nodup →
      (((l.foldl (fun a m => mapSet a (g m) (f m)) acc).map Prod.fst).Nodup)
  | [], _, hacc => hacc
  | _ :: t, acc, hacc =>
      foldl_mapSet_keys_nodup g f t _ (mapSet_keys_nodup hacc)

theorem foldl_mapSet_vals_id (f : ZAIModel → ZAIModel)
    (hf : ∀ m, (f m).id = m.id) :
    ∀ (l : List ZAIModel) (acc : List (String × ZAIModel)),
      (∀ p ∈ acc, p.2.id = p.1) →
      ∀ p ∈ l.foldl (fun a m => mapSet a m.id (f m)) acc, p.2.id = p.1
  | [], _, hacc => hacc
  | m :: t, acc, hacc =>
      foldl_mapSet_vals_id f hf t _ (mapSet_vals_id hacc (hf m))

theorem foldl_mapSet_vals_mem (g : ZAIModel → String) (f : ZAIModel → ZAIModel)
    (P : ZAIModel → Prop) :
    ∀ (l : List ZAIModel) (acc : List (String × ZAIModel)),
      (∀ p ∈ acc, P p.2) → (∀ m ∈ l, P (f m)) →
      ∀ p ∈ l.foldl (fun a m => mapSet a (g m) (f m)) acc, P p.2
  | [], _, hacc, _ => hacc
  | m :: t, acc, hacc, hl =>
      foldl_mapSet_vals_mem g f P t _
        (mapSet_vals_mem hacc (hl m (List.mem_cons_self m t)))
        (fun m' hm' => hl m' (List.mem_cons_of_mem m hm'))

/-- Setting a fresh key appends. -/
theorem mapSet_fresh {l : List (String × ZAIModel)} {k : String} {v : ZAIModel}
    (hk : k ∉ l.map Prod.fst) : mapSet l k v = l ++ [(k, v)] := by
  unfold mapSet
  rw [if_neg]
  intro hany
  obtain ⟨p, hp, hpk⟩ := List.any_eq_true.mp hany
  simp at hpk
  exact hk (List.mem_map.mp (by exact List.mem_map.mpr ⟨p, hp, hpk⟩) |> fun _ =>
    List.mem_map.mpr ⟨p, hp, hpk⟩)

/-- Folding models with pairwise-distinct fresh keys appends them in order. -/
theorem foldl_mapSet_fresh (g : ZAIModel → String) (f : ZAIModel → ZAIModel) :
    ∀ (l : List ZAIModel) (acc : List (String × ZAIModel)),
      (∀ m ∈ l, g m ∉ acc.map Prod.fst) → (l.map g).Nodup →
      l.foldl (fun a m => mapSet a (g m) (f m)) acc = acc ++ l.map (fun m => (g m, f m))
  | [], acc, _, _ => by simp
  | m :: t, acc, hfresh, hnodup => by
      have h1 : mapSet acc (g m) (f m) = acc ++ [(g m, f m)] :=
        mapSet_fresh (hfresh m (List.mem_cons_self m t))
      have h2 : t.foldl (fun a m => mapSet a (g m) (f m)) (acc ++ [(g m, f m)]) =
          (acc ++ [(g m, f m)]) ++ t.map (fun m => (g m, f m)) := by
        apply foldl_mapSet_fresh g f t
        · intro m' hm'
          rw [List.map_append]
          simp only [List.map_cons, List.map_nil]
          intro hmem
          rcases List.mem_append.mp hmem with hmem | hmem
          · exact hfresh m' (List.mem_cons_of_mem m hm') hmem
          · simp at hmem
            rw [List.map_cons] at hnodup
            exact (List.nodup_cons.mp hnodup).1 (hmem ▸ List.mem_map.mpr ⟨m', hm', rfl⟩)
        · rw [List.map_cons] at hnodup
          exact (List.nodup_cons.mp hnodup).2
      simp only [List.foldl_cons, h1, h2, List.map_cons]
      simp

theorem getAvailableModels_ok_cons (cfg : Config) (now nowOverlay : Nat)
    (m : ZAIModel) (t : List ZAIModel) :
    getAvailableModels cfg now nowOverlay (.ok (m :: t)) =
      ((m :: t).foldl (fun acc model => mapSet acc model.id (mergeModel nowOverlay model))
        ((getDefaultModels cfg now).foldl (fun acc model => mapSet acc model.id model) [])).map
        Prod.snd := by
  show (if (m :: t).length > 0 then _ else _) = _
  rw [if_pos (by simp)]

/-- Sample configuration with two colliding default model ids. -/
def cfgDup : Config :=
  ⟨true, "backup-token", "think", "https://chat.z.ai", "https://chat.z.ai/api/chat/completions",
   "m1", "m1", "m3", "m4", "m5", "m6", "m7"⟩

def mX : ZAIModel := ⟨"X", some "Foo", none, none, none, none, []⟩

def mEmptyName : ZAIModel := ⟨"X", some "", none, none, none, none, []⟩

/-- Counterexample to claim C4 as stated: (1) a fetched model carrying the
empty string as its name is overlaid with the id as name — the merge treats an
empty (falsy) name like an absent one, so the entry's name is not "the fetched
name"; (2) with two equal default ids the merged list has 7 entries, not
len(defaults) + 1 = 8. -/
theorem claim_C4_counterexample :
    mEmptyName.name = some "" ∧
    (getAvailableModels cfgEx 100 200 (.ok [mEmptyName])).getLast? =
      some ⟨"X", some "X", none, some 200, some "z.ai", none, []⟩ ∧
    (some "X" : Option String) ≠ some "" ∧
    (getDefaultModels cfgDup 100).length = 7 ∧
    (getAvailableModels cfgDup 100 200 (.ok [mX])).length = 7 := by
  refine ⟨rfl, by decide, by decide, rfl, by decide⟩

/-- Claim C4 as amended: assuming the configured default model ids are
pairwise distinct, getAvailableModels returns a list with unique ids; each
fetched model's merged entry takes its name from the fetched name when that is
a non-empty string, else from info.name when that is a non-empty string, else
the id (and analogously created falls back on zero/absent via info.created_at
to the overlay clock, owned_by on empty/absent via info.user_id to "z.ai");
fetching exactly one model whose id is not among the default ids yields the
defaults followed by that merged entry, of length len(defaults) + 1. -/
theorem claim_C4 (cfg : Config) (now nowOverlay : Nat)
    (hids : (((getDefaultModels cfg now).map ZAIModel.id).Nodup)) :
    (∀ fetched, (((getAvailableModels cfg now nowOverlay fetched).map ZAIModel.id).Nodup)) ∧
    (∀ m : ZAIModel, ∀ s, m.name = some s → s ≠ "" →
      (mergeModel nowOverlay m).name = some s) ∧
    (∀ m : ZAIModel, ∀ s, (m.name = none ∨ m.name = some "") →
      m.info.bind ZAIModelInfo.name = some s → s ≠ "" →
      (mergeModel nowOverlay m).name = some s) ∧
    (∀ m : ZAIModel, (m.name = none ∨ m.name = some "") →
      (m.info.bind ZAIModelInfo.name = none ∨ m.info.bind ZAIModelInfo.name = some "") →
      (mergeModel nowOverlay m).name = some m.id) ∧
    (∀ m : ZAIModel, ∀ n, m.created = some n → n ≠ 0 →
      (mergeModel nowOverlay m).created = some n) ∧
    (∀ m : ZAIModel, ∀ n, (m.created = none ∨ m.created = some 0) →
      m.info.bind ZAIModelInfo.created_at = some n → n ≠ 0 →
      (mergeModel nowOverlay m).created = some n) ∧
    (∀ m : ZAIModel, (m.created = none ∨ m.created = some 0) →
      (m.info.bind ZAIModelInfo.created_at = none ∨
        m.info.bind ZAIModelInfo.created_at = some 0) →
      (mergeModel nowOverlay m).created = some nowOverlay) ∧
    (∀ m : ZAIModel, ∀ s, m.owned_by = some s → s ≠ "" →
      (mergeModel nowOverlay m).owned_by = some s) ∧
    (∀ m : ZAIModel, ∀ s, (m.owned_by = none ∨ m.owned_by = some "") →
      m.info.bind ZAIModelInfo.user_id = some s → s ≠ "" →
      (mergeModel nowOverlay m).owned_by = some s) ∧
    (∀ m : ZAIModel, (m.owned_by = none ∨ m.owned_by = some "") →
      (m.info.bind ZAIModelInfo.user_id = none ∨ m.info.bind ZAIModelInfo.user_id = some "") →
      (mergeModel nowOverlay m).owned_by = some "z.ai") ∧
    (∀ m : ZAIModel, m.id ∉ (getDefaultModels cfg now).map ZAIModel.id →
      getAvailableModels cfg now nowOverlay (.ok [m]) =
        getDefaultModels cfg now ++ [mergeModel nowOverlay m] ∧
      (getAvailableModels cfg now nowOverlay (.ok [m])).length =
        (getDefaultModels cfg now).length + 1) := by
  refine ⟨?_, ?_, ?_, ?_, ?_, ?_, ?_, ?_, ?_, ?_, ?_⟩
  · intro fetched
    match fetched with
    | .error _ => exact hids
    | .ok [] => exact hids
    | .ok (m :: t) =>
        rw [getAvailableModels_ok_cons]
        have hvals : ∀ p ∈ (m :: t).foldl
            (fun acc model => mapSet acc model.id (mergeModel nowOverlay model))
            ((getDefaultModels cfg now).foldl (fun acc model => mapSet acc model.id model) []),
            p.2.id = p.1 := by
          apply foldl_mapSet_vals_id (fun model => mergeModel nowOverlay model) (fun _ => rfl)
          apply foldl_mapSet_vals_id (fun model => model) (fun _ => rfl)
          intro p hp
          simp at hp
        have hkeys : (((m :: t).foldl
            (fun acc model => mapSet acc model.id (mergeModel nowOverlay model))
            ((getDefaultModels cfg now).foldl (fun acc model => mapSet acc model.id model)
              [])).map Prod.fst).Nodup := by
          apply foldl_mapSet_keys_nodup (fun model => model.id)
            (fun model => mergeModel nowOverlay model)
          apply foldl_mapSet_keys_nodup (fun model => model.id) (fun model => model)
          simp
        have : ((( m :: t).foldl
            (fun acc model => mapSet acc model.id (mergeModel nowOverlay model))
            ((getDefaultModels cfg now).foldl (fun acc model => mapSet acc model.id model)
              [])).map Prod.snd).map ZAIModel.id =
            ((m :: t).foldl
            (fun acc model => mapSet acc model.id (mergeModel nowOverlay model))
            ((getDefaultModels cfg now).foldl (fun acc model => mapSet acc model.id model)
              [])).map Prod.fst := by
          rw [List.map_map]
          exact List.map_congr_left (fun p hp => hvals p hp)
        rw [this]
        exact hkeys
  · intro m s hname hs
    simp [mergeModel, jsOrStr, hname, hs]
  · intro m s hname hinfo hs
    rcases hname with hname | hname <;> simp [mergeModel, jsOrStr, hname, hinfo, hs]
  · intro m hname hinfo
    rcases hname with hname | hname <;> rcases hinfo with hinfo | hinfo <;>
      simp [mergeModel, jsOrStr, hname, hinfo]
  · intro m n hc hn
    simp [mergeModel, jsOrNat, hc, hn]
  · intro m n hc hinfo hn
    rcases hc with hc | hc <;> simp [mergeModel, jsOrNat, hc, hinfo, hn]
  · intro m hc hinfo
    rcases hc with hc | hc <;> rcases hinfo with hinfo | hinfo <;>
      simp [mergeModel, jsOrNat, hc, hinfo]
  · intro m s ho hs
    simp [mergeModel, jsOrStr, ho, hs]
  · intro m s ho hinfo hs
    rcases ho with ho | ho <;> simp [mergeModel, jsOrStr, ho, hinfo, hs]
  · intro m ho hinfo
    rcases ho with ho | ho <;> rcases hinfo with hinfo | hinfo <;>
      simp [mergeModel, jsOrStr, ho, hinfo]
  · intro m hm
    have hm0 : (getDefaultModels cfg now).foldl (fun acc model => mapSet acc model.id model)
        [] = (getDefaultModels cfg now).map (fun d => (d.id, d)) := by
      have := foldl_mapSet_fresh (fun model => model.id) (fun model => model)
        (getDefaultModels cfg now) [] (by simp) hids
      simpa using this
    have hkeys0 : ((getDefaultModels cfg now).map (fun d => (d.id, d))).map Prod.fst =
        (getDefaultModels cfg now).map ZAIModel.id := by
      rw [List.map_map]
      rfl
    have heq : getAvailableModels cfg now nowOverlay (.ok [m]) =
        getDefaultModels cfg now ++ [mergeModel nowOverlay m] := by
      rw [getAvailableModels_ok_cons]
      simp only [List.foldl_cons, List.foldl_nil, hm0]
      rw [mapSet_fresh (by rw [hkeys0]; exact hm)]
      rw [List.map_append, List.map_map]
      rw [show (Prod.snd ∘ fun d : ZAIModel => (d.id, d)) = id from rfl, List.map_id]
      simp
    exact ⟨heq, by rw [heq]; simp⟩

/-- Witness for claim C4 at concrete inputs. -/
theorem claim_C4_witness :
    (((getAvailableModels cfgEx 100 200 (.ok [mX])).map ZAIModel.id).Nodup) ∧
    getAvailableModels cfgEx 100 200 (.ok [mX]) =
      getDefaultModels cfgEx 100 ++ [mergeModel 200 mX] ∧
    (mergeModel 200 mX).name = some "Foo" :=
  ⟨(claim_C4 cfgEx 100 200 (by decide)).1 (.ok [mX]),
   ((claim_C4 cfgEx 100 200 (by decide)).2.2.2.2.2.2.2.2.2.2 mX (by decide)).1,
   (claim_C4 cfgEx 100 200 (by decide)).2.1 mX "Foo" rfl (by decide)⟩

/-- Claim C9: every entry of the merged list is either a default entry or the
four-field overlay object of some fetched model, and that overlay carries no
display_name, no info and no other fields. -/
theorem claim_C9 (cfg : Config) (now nowOverlay : Nat) (latest : List ZAIModel) :
    (∀ entry ∈ getAvailableModels cfg now nowOverlay (.ok latest),
      entry ∈ getDefaultModels cfg now ∨ ∃ m ∈ latest, entry = mergeModel nowOverlay m) ∧
    (∀ m : ZAIModel, (mergeModel nowOverlay m).display_name = none ∧
      (mergeModel nowOverlay m).info = none ∧ (mergeModel nowOverlay m).extra = []) := by
  constructor
  · match latest with
    | [] =>
        intro entry hentry
        exact Or.inl hentry
    | m :: t =>
        intro entry hentry
        rw [getAvailableModels_ok_cons] at hentry
        obtain ⟨p, hp, rfl⟩ := List.mem_map.mp hentry
        refine foldl_mapSet_vals_mem (fun model => model.id)
          (fun model => mergeModel nowOverlay model)
          (fun v => v ∈ getDefaultModels cfg now ∨
            ∃ m' ∈ m :: t, v = mergeModel nowOverlay m') (m :: t) _ ?_ ?_ p hp
        · refine foldl_mapSet_vals_mem (fun model => model.id) (fun model => model)
            (fun v => v ∈ getDefaultModels cfg now ∨
              ∃ m' ∈ m :: t, v = mergeModel nowOverlay m') (getDefaultModels cfg now) [] ?_ ?_
          · intro p hp
            simp at hp
          · intro d hd
            exact Or.inl hd
        · intro m' hm'
          exact Or.inr ⟨m', hm', rfl⟩
  · intro m
    exact ⟨rfl, rfl, rfl⟩

/-- Witness for claim C9 at concrete inputs. -/
theorem claim_C9_witness :
    ((⟨"m1", some "m1", none, some 100, some "z.ai", none, []⟩ : ZAIModel) ∈
        getDefaultModels cfgEx 100 ∨
      ∃ m ∈ [mX], (⟨"m1", some "m1", none, some 100, some "z.ai", none, []⟩ : ZAIModel) =
        mergeModel 200 m) ∧
    (mergeModel 200 mX).display_name = none ∧ (mergeModel 200 mX).info = none ∧
      (mergeModel 200 mX).extra = [] :=
  ⟨(claim_C9 cfgEx 100 200 [mX]).1 _ (by decide), (claim_C9 cfgEx 100 200 [mX]).2 mX⟩

/-- Counterexample to claim C2 as stated: a 500-status upstream response is
returned as a success value, not raised as an error. -/
theorem claim_C2_counterexample :
    callUpstreamApi cfgEx reqEx "chat1" "tok" 0 0 "rid" "uid" 5 6
      (fun _ => .ok ⟨500⟩) = .ok ⟨500⟩ ∧ ¬(200 ≤ 500 ∧ 500 < 300) :=
  ⟨rfl, by omega⟩

/-- Claim C2 as amended: callUpstreamApi propagates transport (network/timeout)
errors uncaught, returns the upstream response unchanged for every HTTP status,
and issues the request with a 60000 ms timeout. -/
theorem claim_C2 (cfg : Config) (upstreamReq : UpstreamRequest) (chatId authToken : String)
    (pick rpick : Nat) (requestId userId : String) (nowMs sigNowMs : Nat)
    (transport : UpstreamCallSpec → Except String HttpResponse) :
    (∀ msg, transport (buildUpstreamCall cfg upstreamReq chatId authToken pick rpick
        requestId userId nowMs sigNowMs) = .error msg →
      callUpstreamApi cfg upstreamReq chatId authToken pick rpick requestId userId
        nowMs sigNowMs transport = .error msg) ∧
    (∀ resp, transport (buildUpstreamCall cfg upstreamReq chatId authToken pick rpick
        requestId userId nowMs sigNowMs) = .ok resp →
      callUpstreamApi cfg upstreamReq chatId authToken pick rpick requestId userId
        nowMs sigNowMs transport = .ok resp) ∧
    (buildUpstreamCall cfg upstreamReq chatId authToken pick rpick requestId userId
        nowMs sigNowMs).timeoutMs = 60000 :=
  ⟨fun _ h => h, fun _ h => h, rfl⟩

/-- Modelled from claim C1's words (for comparison with the source): the text
of the most recent user-role entry regardless of emptiness, falling back to the
last message only when no user-role message exists at all. -/
def claimedLastUserMessageContent (messages : List Message) : String :=
  match messages.reverse.find? (fun m => m.role == "user") with
  | some m => extractMessageText m
  | none =>
      match messages.getLast? with
      | some m => extractMessageText m
      | none => ""

def exMsgs : List Message := [⟨"user", .str "", none⟩, ⟨"assistant", .str "bye", none⟩]

/-- Counterexample to claim C1 as stated: with a most-recent user message whose
extracted text is empty, the code skips it and falls back to the last message,
while the claim demands that user message's (empty) text. -/
theorem claim_C1_counterexample :
    getLastUserMessageContent exMsgs = "bye" ∧
    claimedLastUserMessageContent exMsgs = "" ∧
    getLastUserMessageContent exMsgs ≠ claimedLastUserMessageContent exMsgs := by
  refine ⟨by decide, by decide, by decide⟩

/-- The spec-side description of the amended claim C1: the most recent
user-role entry with non-empty extracted text, written with `find?`. -/
def lastNonEmptyUserText (messages : List Message) : Option String :=
  (messages.reverse.find? (fun m => m.role == "user" && extractMessageText m != "")).map
    extractMessageText

theorem lastUserScan_eq_find (l : List Message) :
    lastUserScan l =
      (l.find? (fun m => m.role == "user" && extractMessageText m != "")).map
        extractMessageText := by
  induction l with
  | nil => rfl
  | cons m t ih =>
      by_cases h : (m.role == "user" && extractMessageText m != "") = true
      · simp [lastUserScan, List.find?_cons_of_pos, h]
      · have hf : (m.role == "user" && extractMessageText m != "") = false :=
          eq_false_of_ne_true h
        simp [lastUserScan, if_neg h, ih, List.find?_cons, hf]

/-- Claim C1 as amended: the extracted text is that of the most recent
user-role message whose extracted text is non-empty (string content verbatim,
list-of-parts content joined and trimmed, else reasoning_content, else empty);
when no user message yields non-empty text it falls back to the very last
message's text, and the empty list yields the empty string. -/
theorem claim_C1 (messages : List Message) :
    getLastUserMessageContent messages =
      (match lastNonEmptyUserText messages with
       | some s => s
       | none =>
          match messages.getLast? with
          | some m => extractMessageText m
          | none => "") := by
  unfold getLastUserMessageContent lastNonEmptyUserText
  rw [lastUserScan_eq_find]

/-- Witness for claim C2 at concrete inputs. -/
theorem claim_C2_witness :
    callUpstreamApi cfgEx reqEx "chat1" "tok" 0 0 "rid" "uid" 5 6
      (fun _ => .error "timeout") = .error "timeout" ∧
    (buildUpstreamCall cfgEx reqEx "chat1" "tok" 0 0 "rid" "uid" 5 6).timeoutMs = 60000 :=
  ⟨(claim_C2 cfgEx reqEx "chat1" "tok" 0 0 "rid" "uid" 5 6 (fun _ => .error "timeout")).1
      "timeout" rfl,
   (claim_C2 cfgEx reqEx "chat1" "tok" 0 0 "rid" "uid" 5 6 (fun _ => .error "timeout")).2.2⟩

end ZAI
